import Mathlib

/-!
Verification of the scrape-orchestration core of the gitlab-pages-exporter.

The definitions below are a shallow embedding of `src/exporter/pages.go`
(current revision, lines 1-214) and of the scheduler wiring in
`src/main.go`.  Pure Go functions become Lean functions; the Prometheus
gauge vectors become association lists keyed by their label tuples with
last-write-wins upsert semantics (`GaugeVec.WithLabelValues(...).Set`);
`GaugeVec.Reset` empties the list.  The remote GitLab client is the
environment: the paginated project listing is a function from page number
to a page response, the per-project job listing and the domain listing are
function parameters.  Two pieces of the repository are documented in the
repository README but implemented in no source revision included under
`src/`; they are modelled from the spec and marked as such in their doc
comments: the lifetime scrape counter (`gpe_number_of_scrapes`) and the
`GPE_SET_ALL_PROJECT_METRICS` publish-all flag.
-/

namespace GPE

/-- A GitLab project as consumed by the exporter: the fields of
`gitlab.Project` that `setProjectPagesMetrics` reads (`ID`, `Name`,
`WebURL`, `BuildsAccessLevel`, `PagesAccessLevel`).  Access levels are the
string values of the `gitlab.AccessControlValue` enum. -/
structure Project where
  id : Nat
  name : String
  webURL : String
  buildsAccessLevel : String
  pagesAccessLevel : String
deriving DecidableEq

/-- A CI job record as consumed by the checker: only `Name` is read. -/
structure Job where
  name : String
deriving DecidableEq

/-- A pages custom domain as consumed by `setCustomDomainMetrics`:
`ProjectID`, `URL`, `Verified`. -/
structure PagesDomain where
  projectID : Nat
  url : String
  verified : Bool
deriving DecidableEq

/-- The label tuple of the `gpe_pages_enabled` gauge vector
(`project_id`, `project_name`, `web_url`, `access_level`, `check`),
in the order registered in `NewGitlabPagesExporter`. -/
structure ProjectSeriesKey where
  project_id : String
  project_name : String
  web_url : String
  access_level : String
  check : String
deriving DecidableEq

/-- The label tuple of the `gpe_custom_domains_verified` gauge vector
(`project_id`, `url`). -/
structure DomainSeriesKey where
  project_id : String
  url : String
deriving DecidableEq

/-- Last-write-wins upsert into a labelled gauge vector, the semantics of
`GaugeVec.WithLabelValues(labels...).Set(v)`: the entry for an existing
key is replaced in place, a fresh key is appended. -/
def upsert {α : Type} [DecidableEq α] (key : α) (v : Nat) :
    List (α × Nat) → List (α × Nat)
  | [] => [(key, v)]
  | (k, w) :: rest =>
    if k = key then (key, v) :: rest else (k, w) :: upsert key v rest

/-- The mutable metric registry of `GitlabPagesExporter`.  The two
per-cycle gauge vectors are association lists; the label-less gauges
(`gpe_check_running`, `gpe_last_check_duration_seconds`,
`gpe_last_check_time_unix`) are scalars, the timing gauges `Option`-valued
because they are unset until the first cycle finishes.  `scrapeCount` is
the lifetime cycle counter `gpe_number_of_scrapes`:
Modelled from the spec — the counter is documented in the repository
README and in spec section 4.1 (`incrementCycleCount`) but implemented in
no source revision included under `src/`. -/
structure MetricState where
  projectPagesMetrics : List (ProjectSeriesKey × Nat)
  customDomainMetrics : List (DomainSeriesKey × Nat)
  checkState : Nat
  lastCheckDuration : Option Nat
  lastCheckTime : Option Nat
  scrapeCount : Nat
deriving DecidableEq

/-- The registry as built by `NewGitlabPagesExporter`: no series recorded
yet, all scalar gauges at their zero values. -/
def initMetricState : MetricState :=
  { projectPagesMetrics := []
    customDomainMetrics := []
    checkState := 0
    lastCheckDuration := none
    lastCheckTime := none
    scrapeCount := 0 }

/-- Embedding of `GitlabPagesExporter.clear`: resets exactly the custom-domain and
project-pages gauge vectors and touches nothing else. -/
def clear (m : MetricState) : MetricState :=
  { m with customDomainMetrics := [], projectPagesMetrics := [] }

/-- Embedding of `GitlabPagesExporter.setRunning`: sets the `gpe_check_running` gauge
to 1.0 or 0.0. -/
def setRunning (running : Bool) (m : MetricState) : MetricState :=
  { m with checkState := if running then 1 else 0 }

/-- Embedding of `GitlabPagesExporter.setLastCheckMetrics`: records the elapsed cycle
duration and the completion time (`SetToCurrentTime`; the clock value is a
parameter of the model). -/
def setLastCheckMetricsState (elapsed finished : Nat) (m : MetricState) :
    MetricState :=
  { m with lastCheckDuration := some elapsed, lastCheckTime := some finished }

/-- Modelled from the spec: `incrementCycleCount` advances the lifetime
scrape counter (`gpe_number_of_scrapes`, spec section 4.1) by one at cycle
completion; the counter is never reset.  The implementing revision is not
among the source revisions under `src/`. -/
def incrementCycleCount (m : MetricState) : MetricState :=
  { m with scrapeCount := m.scrapeCount + 1 }

/-- Outcome of one `setProjectPagesMetrics` invocation: the gauge value
written (`hasPagesJob`, 0.0 or 1.0 in the Go source), the `check` label
(`succeeded` or `failed`), and whether the secondary
`Jobs.ListProjectJobs` lookup was issued (instrumentation of the model,
used to state the short-circuit claims). -/
structure CheckResult where
  hasPagesJob : Nat
  check : String
  lookupPerformed : Bool
deriving DecidableEq

/-- The job-scan loop of `setProjectPagesMetrics`: `hasPagesJob` becomes
1.0 at the first job named `pages` and the scan stops there (`break`). -/
def hasPagesIn : List Job → Nat
  | [] => 0
  | j :: rest => if j.name == "pages" then 1 else hasPagesIn rest

/-- The checker logic of `GitlabPagesExporter.setProjectPagesMetrics`
(pages.go lines 167-194).  `lookup` is the environment's
`Jobs.ListProjectJobs(project.ID, PerPage 20, Scope success)` primitive;
it returns the listed jobs or a transport/API error.  The guard mirrors
`string(project.BuildsAccessLevel) != "disabled" &&
string(project.PagesAccessLevel) != "disabled"`; when it fails no lookup
is issued and the result stays at the initial
`hasPagesJob := 0.0; check := "succeeded"`. -/
def setProjectPagesMetrics (lookup : Project → Except String (List Job))
    (p : Project) : CheckResult :=
  if p.buildsAccessLevel != "disabled" && p.pagesAccessLevel != "disabled" then
    match lookup p with
    | Except.error _ => { hasPagesJob := 0, check := "failed", lookupPerformed := true }
    | Except.ok jobs =>
      { hasPagesJob := hasPagesIn jobs, check := "succeeded", lookupPerformed := true }
  else
    { hasPagesJob := 0, check := "succeeded", lookupPerformed := false }

/-- The label tuple `setProjectPagesMetrics` writes:
`fmt.Sprintf("%d", project.ID)`, `project.Name`, `project.WebURL`,
`string(project.PagesAccessLevel)`, and the computed `check`. -/
def projectSeriesKey (p : Project) (check : String) : ProjectSeriesKey :=
  { project_id := toString p.id
    project_name := p.name
    web_url := p.webURL
    access_level := p.pagesAccessLevel
    check := check }

/-- The state effect of `setProjectPagesMetrics` (pages.go lines
196-202): one unconditional upsert of the project's series with the
computed gauge value. -/
def setProjectPagesMetricsState (lookup : Project → Except String (List Job))
    (p : Project) (m : MetricState) : MetricState :=
  let r := setProjectPagesMetrics lookup p
  { m with projectPagesMetrics :=
      upsert (projectSeriesKey p r.check) r.hasPagesJob m.projectPagesMetrics }

/-- Embedding of `GitlabPagesExporter.setCustomDomainMetrics`: value 1.0, or 0.0 when
the domain is unverified, upserted under
(`fmt.Sprintf("%d", domain.ProjectID)`, `domain.URL`). -/
def setCustomDomainMetricsState (d : PagesDomain) (m : MetricState) :
    MetricState :=
  { m with customDomainMetrics :=
      (upsert (DomainSeriesKey.mk (toString d.projectID) d.url)
        (if d.verified then 1 else 0) m.customDomainMetrics) }

/-- Embedding of `GitlabPagesExporter.fetchCustomDomainMetrics`: `dm` is the
environment's `PagesDomains.ListAllPagesDomains()` result.  On error the
error is logged and the nil slice yields no records; on success every
listed domain is recorded (the per-domain goroutines applied in list
order, one admissible interleaving). -/
def fetchCustomDomainMetricsState (dm : Except String (List PagesDomain))
    (m : MetricState) : MetricState :=
  match dm with
  | Except.error _ => m
  | Except.ok ds => ds.foldl (fun acc d => setCustomDomainMetricsState d acc) m

/-- One page result of the environment's
`Projects.ListProjects(OrderBy id, Sort asc, PerPage 100)` primitive,
restricted to calls that returned an HTTP response: the listed projects,
`resp.NextPage` (0 when the `X-Next-Page` header is absent, i.e. on the
last page and on API-status error responses), and whether the call
returned an error (which `fetchProjectPagesMetrics` logs).  A
transport-level failure returns no response at all and is NOT covered by
this restricted type — see `FetchTriple` for the full client model,
where the nil response makes the loop panic; `runLoopFull_withResponses`
proves that on response-carrying inventories the full model agrees with
the loop over this type. -/
structure PageResp where
  projects : List Project
  nextPage : Nat
  err : Bool
deriving DecidableEq

/-- The accumulator of the pagination loop in
`fetchProjectPagesMetrics` (pages.go lines 113-130): the current
`projOpts.Page`, the projects for which a `setProjectPagesMetrics`
goroutine has been spawned (in spawn order), the running `totalProjects`,
and the number of page-fetch errors logged. -/
structure LoopState where
  page : Nat
  spawned : List Project
  total : Nat
  errors : Nat
deriving DecidableEq

/-- Result of one iteration of the pagination loop: continue with a new
accumulator, or break out of the loop. -/
inductive LoopOut
  | more (s : LoopState)
  | done (s : LoopState)
deriving DecidableEq

/-- One iteration of the `for` loop of `fetchProjectPagesMetrics`, in
source order: fetch the page; on error log it (counted in `errors`);
`if resp.NextPage == 0 { break }`; otherwise spawn one check goroutine
per listed project, advance `projOpts.Page` to `resp.NextPage` and add
the page's length to `totalProjects`.  Note the break is tested before
the page's projects are spawned or counted. -/
def loopIter (inv : Nat → PageResp) (s : LoopState) : LoopOut :=
  let r := inv s.page
  let errors := if r.err then s.errors + 1 else s.errors
  if r.nextPage == 0 then
    LoopOut.done { s with errors := errors }
  else
    LoopOut.more
      { page := r.nextPage
        spawned := s.spawned ++ r.projects
        total := s.total + r.projects.length
        errors := errors }

/-- The pagination loop, fuelled (the Go loop has no bound; every theorem
either supplies enough fuel or hypothesises termination).  `none` means
the fuel ran out before the loop broke. -/
def runLoop (inv : Nat → PageResp) : Nat → LoopState → Option LoopState
  | 0, _ => none
  | fuel + 1, s =>
    match loopIter inv s with
    | LoopOut.done s₂ => some s₂
    | LoopOut.more s₂ => runLoop inv fuel s₂

/-- The loop starts at `Page: 1` with nothing spawned. -/
def initLoopState : LoopState :=
  { page := 1, spawned := [], total := 0, errors := 0 }

/-- Sequentialisation of `GitlabPagesExporter.Run` (pages.go lines
205-214): `setRunning(true)`; `clear()`; the custom-domain branch
(spawned with `go` in the source; applied here before the project loop —
one admissible interleaving, the two measurement families touch disjoint
state); the pagination loop; the spawned project checks applied in spawn
order; `setLastCheckMetrics`; `setRunning(false)`.  The final
`incrementCycleCount` is the spec-modelled lifetime counter advance at
cycle completion (spec section 4.3 step 6).  `elapsed` and `finished` are
the wall-clock readings of the environment.  `none` only when the fuel
for the pagination loop ran out. -/
def runCycle (inv : Nat → PageResp) (dm : Except String (List PagesDomain))
    (lookup : Project → Except String (List Job))
    (elapsed finished fuel : Nat) (m : MetricState) : Option MetricState :=
  let m₁ := clear (setRunning true m)
  let m₂ := fetchCustomDomainMetricsState dm m₁
  match runLoop inv fuel initLoopState with
  | none => none
  | some s =>
    let m₃ := s.spawned.foldl (fun acc p => setProjectPagesMetricsState lookup p acc) m₂
    some (incrementCycleCount (setRunning false (setLastCheckMetricsState elapsed finished m₃)))

/-! ## Full client model of the page fetch

The go-gitlab client returns the triple `(projects, resp, err)`.  On an
API-status error `resp` is a non-nil `*Response` whose pagination
headers are absent (`NextPage` 0); on a transport-level failure
(connection refused, DNS, TLS) the client returns a nil `*Response`.
`fetchProjectPagesMetrics` logs the error and then dereferences
`resp.NextPage` unconditionally (pages.go line 119), which on a nil
response is a nil-pointer panic that kills the goroutine and with it the
process: nothing after the loop — `setLastCheckMetrics`,
`setRunning(false)`, the counter advance — executes. -/

/-- Result of one `Projects.ListProjects` call as the client actually
delivers it: the listed projects, the `*Response` — `some nextPage` when
an HTTP response came back, `none` when a transport-level failure
produced no response — and whether the call returned an error. -/
structure FetchTriple where
  projects : List Project
  resp : Option Nat
  err : Bool
deriving DecidableEq

/-- Outcome of one full-model loop iteration: continue, break out, or
panic on the nil-response dereference. -/
inductive LoopOutFull
  | more (s : LoopState)
  | done (s : LoopState)
  | crash (s : LoopState)
deriving DecidableEq

/-- One iteration of the pagination loop over the full client model, in
source order: fetch the page; on error log it (counted in `errors`);
then evaluate `resp.NextPage` — a nil response panics right here —
`if resp.NextPage == 0 { break }`; otherwise spawn one check goroutine
per listed project, advance the page and add to the total. -/
def loopIterFull (inv : Nat → FetchTriple) (s : LoopState) : LoopOutFull :=
  let r := inv s.page
  let errors := if r.err then s.errors + 1 else s.errors
  match r.resp with
  | none => LoopOutFull.crash { s with errors := errors }
  | some nextPage =>
    if nextPage == 0 then
      LoopOutFull.done { s with errors := errors }
    else
      LoopOutFull.more
        { page := nextPage
          spawned := s.spawned ++ r.projects
          total := s.total + r.projects.length
          errors := errors }

/-- Final state of the full-model pagination loop: broke out normally
(`setLastCheckMetrics` follows), or panicked on a nil response (nothing
after the loop runs). -/
inductive LoopFinal
  | finished (s : LoopState)
  | crashed (s : LoopState)
deriving DecidableEq

/-- The full-model pagination loop, fuelled like `runLoop`; `none` means
the fuel ran out before the loop broke or crashed. -/
def runLoopFull (inv : Nat → FetchTriple) : Nat → LoopState → Option LoopFinal
  | 0, _ => none
  | fuel + 1, s =>
    match loopIterFull inv s with
    | LoopOutFull.done s₂ => some (LoopFinal.finished s₂)
    | LoopOutFull.crash s₂ => some (LoopFinal.crashed s₂)
    | LoopOutFull.more s₂ => runLoopFull inv fuel s₂

/-- Outcome of one cycle over the full client model: completed normally,
or died mid-cycle from the nil-response panic — the registry then keeps
whatever was written before the crash, the timing gauges stay unset from
this cycle, the running flag stays 1 and the lifetime counter does not
advance. -/
inductive CycleOutcome
  | completed (m : MetricState)
  | crashed (m : MetricState)
deriving DecidableEq

/-- Sequentialisation of `Run` over the full client model (compare
`runCycle`, identical until the pagination loop ends): a crashed loop
panics out of `fetchProjectPagesMetrics`, so `setLastCheckMetrics`,
`setRunning(false)` and the spec-modelled counter advance never execute;
the checks spawned before the crash are applied in spawn order (one
admissible interleaving of the goroutines that may still have run). -/
def runCycleFull (inv : Nat → FetchTriple) (dm : Except String (List PagesDomain))
    (lookup : Project → Except String (List Job))
    (elapsed finished fuel : Nat) (m : MetricState) : Option CycleOutcome :=
  let m₁ := clear (setRunning true m)
  let m₂ := fetchCustomDomainMetricsState dm m₁
  match runLoopFull inv fuel initLoopState with
  | none => none
  | some (LoopFinal.crashed s) =>
    some (CycleOutcome.crashed
      (s.spawned.foldl (fun acc p => setProjectPagesMetricsState lookup p acc) m₂))
  | some (LoopFinal.finished s) =>
    let m₃ := s.spawned.foldl (fun acc p => setProjectPagesMetricsState lookup p acc) m₂
    some (CycleOutcome.completed
      (incrementCycleCount (setRunning false (setLastCheckMetricsState elapsed finished m₃))))

/-- Embeds an inventory all of whose fetches return a response into the
full client model. -/
def withResponses (inv : Nat → PageResp) : Nat → FetchTriple :=
  fun n =>
    { projects := (inv n).projects, resp := some (inv n).nextPage
      err := (inv n).err }

/-- Events that touch the per-cycle gauge vectors, in the order they are
performed. -/
inductive Event
  | clearEv
  | recordProject (p : Project)
  | recordDomain (d : PagesDomain)
deriving DecidableEq

/-- A spawned goroutine that has not yet run: the domain-branch fetcher
(`go g.fetchCustomDomainMetrics()`), one per-project check
(`go g.setProjectPagesMetrics(project)`), or one per-domain record
(`go g.setCustomDomainMetrics(domain)`). -/
inductive Goroutine
  | domainFetch
  | checkProject (p : Project)
  | recordDomain (d : PagesDomain)
deriving DecidableEq

/-- Program counter of the main goroutine of `Run`: before
`clear()`, inside the pagination loop of `fetchProjectPagesMetrics`, or
past the loop. -/
inductive MainPC
  | start
  | looping (s : LoopState)
  | finished
deriving DecidableEq

/-- State of one running cycle: main program counter, pending
goroutines, events so far (oldest first). -/
structure CycleSys where
  pc : MainPC
  pending : List Goroutine
  events : List Event
deriving DecidableEq

/-- Initially `Run` has nothing spawned and nothing recorded. -/
def cycleInit : CycleSys :=
  { pc := MainPC.start, pending := [], events := [] }

/-- The domains the domain-branch fetcher will record: the listed
domains, or none when the listing errored. -/
def domainsOf (dm : Except String (List PagesDomain)) : List PagesDomain :=
  match dm with
  | Except.error _ => []
  | Except.ok ds => ds

/-- Transitions of one cycle, parametrised by the environment (`inv`
pages, `dm` domain listing).
* `doClear` — the head of `Run`: `setRunning(true)`; `clear()`
  (emitting the clear event); `go fetchCustomDomainMetrics()`; enter the
  pagination loop.  Enabled only at `start`.
* `loopAdvance` — one non-final loop iteration: spawn one check
  goroutine per project of the fetched page and move to the next page.
  Enabled whatever the pending pool holds — the source spawns with `go`
  and has no join.
* `loopBreak` — the `resp.NextPage == 0` exit of the loop.
* `runDomainFetch` — the domain-branch goroutine runs: it spawns one
  record goroutine per listed domain.
* `runRecordDomain` / `runCheck` — a spawned record/check goroutine runs
  and performs its registry write.  Goroutines may run at any point after
  being spawned, whatever the main goroutine is doing. -/
inductive CycleStep (inv : Nat → PageResp) (dm : Except String (List PagesDomain)) :
    CycleSys → CycleSys → Prop
  | doClear (P : List Goroutine) (E : List Event) :
      CycleStep inv dm
        { pc := MainPC.start, pending := P, events := E }
        { pc := MainPC.looping initLoopState
          pending := P ++ [Goroutine.domainFetch]
          events := E ++ [Event.clearEv] }
  | loopAdvance (s s₂ : LoopState) (P : List Goroutine) (E : List Event)
      (h : loopIter inv s = LoopOut.more s₂) :
      CycleStep inv dm
        { pc := MainPC.looping s, pending := P, events := E }
        { pc := MainPC.looping s₂
          pending := P ++ (inv s.page).projects.map Goroutine.checkProject
          events := E }
  | loopBreak (s s₂ : LoopState) (P : List Goroutine) (E : List Event)
      (h : loopIter inv s = LoopOut.done s₂) :
      CycleStep inv dm
        { pc := MainPC.looping s, pending := P, events := E }
        { pc := MainPC.finished, pending := P, events := E }
  | runDomainFetch (pc : MainPC) (l r : List Goroutine) (E : List Event) :
      CycleStep inv dm
        { pc := pc, pending := l ++ Goroutine.domainFetch :: r, events := E }
        { pc := pc
          pending := (l ++ r) ++ (domainsOf dm).map Goroutine.recordDomain
          events := E }
  | runRecordDomain (pc : MainPC) (l r : List Goroutine) (E : List Event)
      (d : PagesDomain) :
      CycleStep inv dm
        { pc := pc, pending := l ++ Goroutine.recordDomain d :: r, events := E }
        { pc := pc, pending := l ++ r, events := E ++ [Event.recordDomain d] }
  | runCheck (pc : MainPC) (l r : List Goroutine) (E : List Event)
      (p : Project) :
      CycleStep inv dm
        { pc := pc, pending := l ++ Goroutine.checkProject p :: r, events := E }
        { pc := pc, pending := l ++ r, events := E ++ [Event.recordProject p] }

/-! ## Scheduler model

`src/main.go` registers `func() { next = sched.Next(...); exp.Run(next) }`
with the cron scheduler and additionally launches the initial cycle with
`go exp.Run(next)`.  Nothing anywhere consults any state before invoking
`Run`: the robfig/cron v1 runner starts each due job in a fresh goroutine
(`go e.Job.Run()`), so every trigger unconditionally starts a `Run`
execution, concurrent with whatever is already in flight.  The system
below models the fleet of in-flight `Run` invocations (coarse program
counters) together with the shared metric registry. -/

/-- Coarse program counter of one in-flight `Run` invocation: triggered
but not yet past `clear()`; mid-cycle (its spawned checks may record);
completed. -/
inductive CycleStage
  | started
  | working
  | done
deriving DecidableEq

/-- The scheduler-level system: the in-flight `Run` invocations (newest
first) and the shared registry. -/
structure SchedSys where
  cycles : List CycleStage
  metrics : MetricState
deriving DecidableEq

/-- Process start: no cycle in flight, fresh registry. -/
def schedInit : SchedSys :=
  { cycles := [], metrics := initMetricState }

/-- Scheduler transitions.
* `trigger` — a cron firing (or the initial `go exp.Run(next)`): the
  handler invokes `Run` unconditionally, so a new in-flight cycle appears
  whatever the current state — there is no guard, no drop, no queue.
* `beginCycle` — an in-flight cycle executes the head of `Run`:
  `setRunning(true); clear()`, emptying both per-cycle gauge vectors.
* `recordCheck` — a check goroutine of a mid-cycle `Run` records one
  project series.
* `finishCycle` — a cycle completes: `setLastCheckMetrics`,
  `setRunning(false)`, and the spec-modelled lifetime counter advance. -/
inductive SchedStep : SchedSys → SchedSys → Prop
  | trigger (s : SchedSys) :
      SchedStep s { s with cycles := CycleStage.started :: s.cycles }
  | beginCycle (l r : List CycleStage) (m : MetricState) :
      SchedStep
        { cycles := l ++ CycleStage.started :: r, metrics := m }
        { cycles := l ++ CycleStage.working :: r
          metrics := clear (setRunning true m) }
  | recordCheck (l r : List CycleStage) (m : MetricState)
      (k : ProjectSeriesKey) (v : Nat) :
      SchedStep
        { cycles := l ++ CycleStage.working :: r, metrics := m }
        { cycles := l ++ CycleStage.working :: r
          metrics := { m with projectPagesMetrics := upsert k v m.projectPagesMetrics } }
  | finishCycle (l r : List CycleStage) (m : MetricState) (e f : Nat) :
      SchedStep
        { cycles := l ++ CycleStage.working :: r, metrics := m }
        { cycles := l ++ CycleStage.done :: r
          metrics := incrementCycleCount (setRunning false (setLastCheckMetricsState e f m)) }

/-! ## Concrete instances used by counterexamples and witnesses -/

/-- Project with CI and pages enabled and a successful `pages` job. -/
def projA : Project :=
  { id := 1, name := "alpha", webURL := "https://git.example/alpha"
    buildsAccessLevel := "enabled", pagesAccessLevel := "enabled" }

/-- Project with CI and pages enabled and no `pages` job. -/
def projB : Project :=
  { id := 2, name := "beta", webURL := "https://git.example/beta"
    buildsAccessLevel := "enabled", pagesAccessLevel := "enabled" }

/-- Project whose pages access level is disabled. -/
def projC : Project :=
  { id := 3, name := "gamma", webURL := "https://git.example/gamma"
    buildsAccessLevel := "enabled", pagesAccessLevel := "disabled" }

/-- Job listing of the spec's section-8 scenario: only `projA` has a
successful job named `pages`. -/
def lookupS : Project → Except String (List Job) :=
  fun p => if p.id == 1 then Except.ok [{ name := "pages" }] else Except.ok []

/-- Job listing that always fails with a transport error. -/
def lookupErr : Project → Except String (List Job) :=
  fun _ => Except.error "transport error"

/-- Inventory with a single empty final page. -/
def inv0 : Nat → PageResp :=
  fun _ => { projects := [], nextPage := 0, err := false }

/-- Two-page inventory, one project per page, then an empty final page:
page 1 lists `projA`, page 2 lists `projB`, page 3 is final. -/
def inv2 : Nat → PageResp :=
  fun n =>
    if n == 1 then { projects := [projA], nextPage := 2, err := false }
    else if n == 2 then { projects := [projB], nextPage := 3, err := false }
    else { projects := [], nextPage := 0, err := false }

/-- Single-page inventory: the one and only page lists `projA` and
signals no further page (`NextPage == 0`). -/
def inv3 : Nat → PageResp :=
  fun _ => { projects := [projA], nextPage := 0, err := false }

/-- Inventory whose every fetch fails with an API-status error: the
client still returns a response, whose pagination headers are absent. -/
def apiErrInv : Nat → FetchTriple :=
  fun _ => { projects := [], resp := some 0, err := true }

/-- Inventory whose every fetch fails at the transport level: the client
returns an error and no response at all. -/
def transInv : Nat → FetchTriple :=
  fun _ => { projects := [], resp := none, err := true }

/-- Reachable cycle state demonstrating the absent page barrier: the
pagination loop stands at page 3 while the checks spawned for page 1
(`projA`) and page 2 (`projB`) are both still pending and no record has
happened. -/
def c3state : CycleSys :=
  { pc := MainPC.looping { page := 3, spawned := [projA, projB], total := 2, errors := 0 }
    pending := [Goroutine.domainFetch, Goroutine.checkProject projA,
                Goroutine.checkProject projB]
    events := [Event.clearEv] }

/-- The series key `projA` gets after a successful check. -/
def keyA : ProjectSeriesKey := projectSeriesKey projA "succeeded"

/-- Scheduler state mid-cycle: one `Run` in flight which has already
recorded the series of `projA`. -/
def schedMid : SchedSys :=
  { cycles := [CycleStage.working]
    metrics :=
      { projectPagesMetrics := [(keyA, 1)]
        customDomainMetrics := []
        checkState := 1
        lastCheckDuration := none
        lastCheckTime := none
        scrapeCount := 0 } }

/-- Scheduler state right after a cron trigger fired while the first
cycle was still mid-flight: a second `Run` has been started. -/
def schedTrig : SchedSys :=
  { schedMid with cycles := CycleStage.started :: schedMid.cycles }

/-- Scheduler state after the second `Run` executed `clear()`: two
cycles concurrently in flight and the first cycle's series wiped. -/
def schedOverlap : SchedSys :=
  { cycles := [CycleStage.working, CycleStage.working]
    metrics := clear (setRunning true schedMid.metrics) }

/-- Invariant of one running cycle: before `clear()` nothing has been
spawned or recorded; afterwards the event list starts with the single
clear event. -/
def cycleInv (s : CycleSys) : Prop :=
  (s.pc = MainPC.start ∧ s.events = [] ∧ s.pending = []) ∨
  (s.pc ≠ MainPC.start ∧ ∃ t, s.events = Event.clearEv :: t ∧ Event.clearEv ∉ t)

/-! ## Helper lemmas -/

theorem disabled_shortCircuit (lookup : Project → Except String (List Job))
    (p : Project)
    (h : p.buildsAccessLevel = "disabled" ∨ p.pagesAccessLevel = "disabled") :
    setProjectPagesMetrics lookup p =
      { hasPagesJob := 0, check := "succeeded", lookupPerformed := false } := by
  rcases h with h | h <;> simp [setProjectPagesMetrics, h]

theorem enabled_guard (lookup : Project → Except String (List Job))
    (p : Project) (h₁ : p.buildsAccessLevel ≠ "disabled")
    (h₂ : p.pagesAccessLevel ≠ "disabled") :
    setProjectPagesMetrics lookup p =
      match lookup p with
      | Except.error _ => { hasPagesJob := 0, check := "failed", lookupPerformed := true }
      | Except.ok jobs =>
        { hasPagesJob := hasPagesIn jobs, check := "succeeded", lookupPerformed := true } := by
  simp [setProjectPagesMetrics, h₁, h₂]

theorem foldl_scrapeCount {β : Type} (f : MetricState → β → MetricState)
    (hf : ∀ m x, (f m x).scrapeCount = m.scrapeCount) :
    ∀ (l : List β) (m : MetricState), (l.foldl f m).scrapeCount = m.scrapeCount := by
  intro l
  induction l with
  | nil => intro m; rfl
  | cons x xs ih => intro m; rw [List.foldl_cons, ih, hf]

theorem fetchDomains_scrapeCount (dm : Except String (List PagesDomain))
    (m : MetricState) :
    (fetchCustomDomainMetricsState dm m).scrapeCount = m.scrapeCount := by
  cases dm with
  | error _ => rfl
  | ok ds =>
    exact foldl_scrapeCount (fun acc d => setCustomDomainMetricsState d acc)
      (fun _ _ => rfl) ds m

theorem foldl_lastCheckDuration {β : Type} (f : MetricState → β → MetricState)
    (hf : ∀ m x, (f m x).lastCheckDuration = m.lastCheckDuration) :
    ∀ (l : List β) (m : MetricState),
    (l.foldl f m).lastCheckDuration = m.lastCheckDuration := by
  intro l
  induction l with
  | nil => intro m; rfl
  | cons x xs ih => intro m; rw [List.foldl_cons, ih, hf]

theorem fetchDomains_lastCheckDuration (dm : Except String (List PagesDomain))
    (m : MetricState) :
    (fetchCustomDomainMetricsState dm m).lastCheckDuration = m.lastCheckDuration := by
  cases dm with
  | error _ => rfl
  | ok ds =>
    exact foldl_lastCheckDuration (fun acc d => setCustomDomainMetricsState d acc)
      (fun _ _ => rfl) ds m

theorem loopIterFull_withResponses (inv : Nat → PageResp) (s : LoopState) :
    loopIterFull (withResponses inv) s =
      match loopIter inv s with
      | LoopOut.done s₂ => LoopOutFull.done s₂
      | LoopOut.more s₂ => LoopOutFull.more s₂ := by
  by_cases h : ((inv s.page).nextPage == 0) = true <;>
    simp [loopIterFull, loopIter, withResponses, h]

theorem runLoopFull_withResponses (inv : Nat → PageResp) :
    ∀ (fuel : Nat) (s : LoopState),
    runLoopFull (withResponses inv) fuel s =
      (runLoop inv fuel s).map LoopFinal.finished := by
  intro fuel
  induction fuel with
  | zero => intro s; rfl
  | succ n ih =>
    intro s
    rw [runLoopFull, runLoop, loopIterFull_withResponses]
    cases loopIter inv s with
    | done s₂ => rfl
    | more s₂ => exact ih s₂

theorem cycleInv_step (inv : Nat → PageResp)
    (dm : Except String (List PagesDomain)) (a b : CycleSys)
    (hinv : cycleInv a) (h : CycleStep inv dm a b) : cycleInv b := by
  cases h with
  | doClear P E =>
    rcases hinv with ⟨_, hE, _⟩ | ⟨hpc, _⟩
    · right
      refine ⟨by simp, [], ?_, by simp⟩
      simp only at hE
      rw [hE]
      rfl
    · exact absurd rfl hpc
  | loopAdvance s s₂ P E hit =>
    rcases hinv with ⟨hpc, _, _⟩ | ⟨_, t, hE, hnot⟩
    · exact absurd hpc (by simp)
    · exact Or.inr ⟨by simp, t, hE, hnot⟩
  | loopBreak s s₂ P E hit =>
    rcases hinv with ⟨hpc, _, _⟩ | ⟨_, t, hE, hnot⟩
    · exact absurd hpc (by simp)
    · exact Or.inr ⟨by simp, t, hE, hnot⟩
  | runDomainFetch pc l r E =>
    rcases hinv with ⟨_, _, hP⟩ | ⟨hpc, t, hE, hnot⟩
    · simp only at hP
      exact absurd hP (by simp)
    · exact Or.inr ⟨hpc, t, hE, hnot⟩
  | runRecordDomain pc l r E d =>
    rcases hinv with ⟨_, _, hP⟩ | ⟨hpc, t, hE, hnot⟩
    · simp only at hP
      exact absurd hP (by simp)
    · refine Or.inr ⟨hpc, t ++ [Event.recordDomain d], ?_, ?_⟩
      · simp only at hE ⊢
        rw [hE]
        rfl
      · simp [hnot]
  | runCheck pc l r E p =>
    rcases hinv with ⟨_, _, hP⟩ | ⟨hpc, t, hE, hnot⟩
    · simp only at hP
      exact absurd hP (by simp)
    · refine Or.inr ⟨hpc, t ++ [Event.recordProject p], ?_, ?_⟩
      · simp only at hE ⊢
        rw [hE]
        rfl
      · simp [hnot]

theorem cycleInv_reach (inv : Nat → PageResp)
    (dm : Except String (List PagesDomain)) (s : CycleSys)
    (h : Relation.ReflTransGen (CycleStep inv dm) cycleInit s) : cycleInv s := by
  induction h with
  | refl => exact Or.inl ⟨rfl, rfl, rfl⟩
  | tail _ hbc ih => exact cycleInv_step inv dm _ _ ih hbc

/-! ## Claim theorems -/

/-- C3, code bug: the pagination loop of `fetchProjectPagesMetrics` tests
`resp.NextPage == 0` and breaks before spawning checks for or counting
the fetched page, so the final page's resources never receive a
`ResourceChecker` invocation and are excluded from the running total.  At
the failing input — a single-page inventory listing `projA`, whose
response signals no further page — the loop spawns no check at all and
totals zero, and a full cycle over it records no project series even
though `projA` has a successful `pages` job; the claim requires `projA`
to be checked and the total to be 1. -/
theorem thm_C3 :
    (inv3 1).projects = [projA] ∧ (inv3 1).nextPage = 0 ∧
    runLoop inv3 9 initLoopState =
      some { page := 1, spawned := [], total := 0, errors := 0 } ∧
    runCycle inv3 (Except.ok []) lookupS 5 7 9 initMetricState =
      some { projectPagesMetrics := []
             customDomainMetrics := []
             checkState := 0
             lastCheckDuration := some 5
             lastCheckTime := some 7
             scrapeCount := 1 } :=
  ⟨rfl, rfl, rfl, rfl⟩

/-- C4, confirmed: for every project one of whose access levels is
`disabled`, the checker returns gauge value 0 (derived property false)
with check outcome `succeeded` — never `failed` — and performs no
secondary job lookup. -/
theorem thm_C4 :
    ∀ (lookup : Project → Except String (List Job)) (p : Project),
    p.buildsAccessLevel = "disabled" ∨ p.pagesAccessLevel = "disabled" →
    setProjectPagesMetrics lookup p =
      { hasPagesJob := 0, check := "succeeded", lookupPerformed := false } :=
  fun lookup p h => disabled_shortCircuit lookup p h

theorem thm_C4_witness :
    (projC.buildsAccessLevel = "disabled" ∨ projC.pagesAccessLevel = "disabled") ∧
    setProjectPagesMetrics lookupS projC =
      { hasPagesJob := 0, check := "succeeded", lookupPerformed := false } :=
  ⟨Or.inr rfl, thm_C4 lookupS projC (Or.inr rfl)⟩

/-- C10, confirmed: the disabled short-circuit is a conjunction over the
two access levels — the secondary job lookup is performed exactly when
both the builds access level and the pages access level differ from
`disabled`; when either is `disabled` the result is gauge value 0 with
outcome `succeeded` and no lookup. -/
theorem thm_C10 :
    ∀ (lookup : Project → Except String (List Job)) (p : Project),
    ((setProjectPagesMetrics lookup p).lookupPerformed =
      (p.buildsAccessLevel != "disabled" && p.pagesAccessLevel != "disabled")) ∧
    (p.buildsAccessLevel = "disabled" ∨ p.pagesAccessLevel = "disabled" →
      setProjectPagesMetrics lookup p =
        { hasPagesJob := 0, check := "succeeded", lookupPerformed := false }) := by
  intro lookup p
  constructor
  · cases hc : (p.buildsAccessLevel != "disabled" && p.pagesAccessLevel != "disabled") with
    | false => simp [setProjectPagesMetrics, hc]
    | true =>
      simp only [setProjectPagesMetrics, hc, if_true]
      cases lookup p <;> rfl
  · exact disabled_shortCircuit lookup p

theorem thm_C10_witness :
    (setProjectPagesMetrics lookupS projC).lookupPerformed = false ∧
    setProjectPagesMetrics lookupS projC =
      { hasPagesJob := 0, check := "succeeded", lookupPerformed := false } := by
  have h := thm_C10 lookupS projC
  exact ⟨by rw [h.1]; rfl, h.2 (Or.inr rfl)⟩

/-- C5, confirmed: when the secondary job lookup for an
access-enabled project errors, the checker yields gauge value 0 with
outcome `failed`; the result is still recorded as one data point (the
upsert of the project's series with the `failed` label); each project's
check result depends only on its own lookup result, so one lookup error
leaves every other check unaffected; and cycle completion is independent
of the lookup function, so no lookup error aborts the cycle. -/
theorem thm_C5 :
    ∀ (lookup : Project → Except String (List Job)) (p : Project)
    (msg : String) (m : MetricState),
    p.buildsAccessLevel ≠ "disabled" → p.pagesAccessLevel ≠ "disabled" →
    lookup p = Except.error msg →
    setProjectPagesMetrics lookup p =
      { hasPagesJob := 0, check := "failed", lookupPerformed := true } ∧
    (setProjectPagesMetricsState lookup p m).projectPagesMetrics =
      upsert (projectSeriesKey p "failed") 0 m.projectPagesMetrics ∧
    (∀ (lookup₂ : Project → Except String (List Job)) (q : Project),
      lookup₂ q = lookup q →
      setProjectPagesMetrics lookup₂ q = setProjectPagesMetrics lookup q) ∧
    (∀ (inv : Nat → PageResp) (dm : Except String (List PagesDomain))
      (lookup₂ : Project → Except String (List Job)) (e f fuel : Nat),
      (runCycle inv dm lookup e f fuel m).isSome =
        (runCycle inv dm lookup₂ e f fuel m).isSome) := by
  intro lookup p msg m h₁ h₂ herr
  have hres : setProjectPagesMetrics lookup p =
      { hasPagesJob := 0, check := "failed", lookupPerformed := true } := by
    rw [enabled_guard lookup p h₁ h₂, herr]
  refine ⟨hres, ?_, ?_, ?_⟩
  · simp only [setProjectPagesMetricsState, hres]
  · intro lookup₂ q hq
    simp [setProjectPagesMetrics, hq]
  · intro inv dm lookup₂ e f fuel
    cases hr : runLoop inv fuel initLoopState <;> simp [runCycle, hr]

theorem thm_C5_witness :
    projA.buildsAccessLevel ≠ "disabled" ∧
    lookupErr projA = Except.error "transport error" ∧
    setProjectPagesMetrics lookupErr projA =
      { hasPagesJob := 0, check := "failed", lookupPerformed := true } := by
  refine ⟨by decide, rfl, ?_⟩
  exact (thm_C5 lookupErr projA "transport error" initMetricState
    (by decide) (by decide) rfl).1

/-- C6, counterexample: a cycle whose page fetch errors does NOT always
finalise its metrics.  On the transport-failing inventory `transInv` the
client returns an error and no response; the loop logs the error and
then its `resp.NextPage` dereference panics, so the cycle crashes: in
the resulting registry both timing gauges are still unset, the running
flag is stuck at 1 and the lifetime counter has not advanced — the claim
requires the cycle to stop at that page and still finalise. -/
theorem thm_C6_cex :
    (transInv 1).err = true ∧ (transInv 1).resp = none ∧
    runCycleFull transInv (Except.ok []) lookupS 5 7 9 initMetricState =
      some (CycleOutcome.crashed
        { projectPagesMetrics := []
          customDomainMetrics := []
          checkState := 1
          lastCheckDuration := none
          lastCheckTime := none
          scrapeCount := 0 }) :=
  ⟨rfl, rfl, rfl⟩

/-- C6, amended: when fetching a page returns an API-level error — the
client returned a response, which then carries no next-page header — the
error is logged (the error count advances by one), the loop stops at
that page without refetching it and with the data gathered so far
untouched, and when this happens on the first page the cycle still
completes, finalising the timing gauges and preserving the domain-side
results.  When the fetch fails at the transport level — the client
returns no response at all — the error is still logged but the loop
panics on the nil-response dereference, and the cycle crashes without
finalising: the registry keeps only what was written before the crash. -/
theorem thm_C6 :
    (∀ (inv : Nat → FetchTriple) (fuel : Nat) (s : LoopState),
      (inv s.page).err = true → (inv s.page).resp = some 0 →
      runLoopFull inv (fuel + 1) s =
        some (LoopFinal.finished
          { page := s.page, spawned := s.spawned, total := s.total
            errors := s.errors + 1 }) ∧
      (s = initLoopState →
        ∀ (dm : Except String (List PagesDomain))
          (lookup : Project → Except String (List Job)) (e f : Nat)
          (m : MetricState),
        runCycleFull inv dm lookup e f (fuel + 1) m =
          some (CycleOutcome.completed
            (incrementCycleCount (setRunning false (setLastCheckMetricsState e f
              (fetchCustomDomainMetricsState dm (clear (setRunning true m))))))))) ∧
    (∀ (inv : Nat → FetchTriple) (fuel : Nat) (s : LoopState),
      (inv s.page).resp = none →
      runLoopFull inv (fuel + 1) s =
        some (LoopFinal.crashed
          { page := s.page, spawned := s.spawned, total := s.total
            errors := if (inv s.page).err then s.errors + 1 else s.errors }) ∧
      (s = initLoopState →
        ∀ (dm : Except String (List PagesDomain))
          (lookup : Project → Except String (List Job)) (e f : Nat)
          (m : MetricState),
        runCycleFull inv dm lookup e f (fuel + 1) m =
          some (CycleOutcome.crashed
            (fetchCustomDomainMetricsState dm (clear (setRunning true m)))) ∧
        (fetchCustomDomainMetricsState dm (clear (setRunning true m))).lastCheckDuration =
          m.lastCheckDuration ∧
        (fetchCustomDomainMetricsState dm (clear (setRunning true m))).scrapeCount =
          m.scrapeCount)) := by
  constructor
  · intro inv fuel s herr hresp
    have hit : loopIterFull inv s =
        LoopOutFull.done { page := s.page, spawned := s.spawned, total := s.total
                           errors := s.errors + 1 } := by
      obtain ⟨pg, sp, tt, er⟩ := s
      simp_all [loopIterFull]
    have hrl : runLoopFull inv (fuel + 1) s =
        some (LoopFinal.finished
          { page := s.page, spawned := s.spawned, total := s.total
            errors := s.errors + 1 }) := by
      simp [runLoopFull, hit]
    refine ⟨hrl, ?_⟩
    intro hs dm lookup e f m
    subst hs
    simp [runCycleFull, hrl]
    rfl
  · intro inv fuel s hresp
    have hit : loopIterFull inv s =
        LoopOutFull.crash { page := s.page, spawned := s.spawned, total := s.total
                            errors := if (inv s.page).err then s.errors + 1 else s.errors } := by
      obtain ⟨pg, sp, tt, er⟩ := s
      simp_all [loopIterFull]
    have hrl : runLoopFull inv (fuel + 1) s =
        some (LoopFinal.crashed
          { page := s.page, spawned := s.spawned, total := s.total
            errors := if (inv s.page).err then s.errors + 1 else s.errors }) := by
      simp [runLoopFull, hit]
    refine ⟨hrl, ?_⟩
    intro hs dm lookup e f m
    subst hs
    exact ⟨by simp [runCycleFull, hrl]; rfl,
           fetchDomains_lastCheckDuration dm _, fetchDomains_scrapeCount dm _⟩

theorem thm_C6_witness :
    runLoopFull apiErrInv 1 initLoopState =
      some (LoopFinal.finished { page := 1, spawned := [], total := 0, errors := 1 }) ∧
    runCycleFull apiErrInv (Except.ok []) lookupS 5 7 1 initMetricState =
      some (CycleOutcome.completed
        (incrementCycleCount (setRunning false (setLastCheckMetricsState 5 7
          (fetchCustomDomainMetricsState (Except.ok [])
            (clear (setRunning true initMetricState))))))) ∧
    runLoopFull transInv 1 initLoopState =
      some (LoopFinal.crashed { page := 1, spawned := [], total := 0, errors := 1 }) ∧
    runCycleFull transInv (Except.ok []) lookupS 5 7 1 initMetricState =
      some (CycleOutcome.crashed
        (fetchCustomDomainMetricsState (Except.ok [])
          (clear (setRunning true initMetricState)))) := by
  have h1 := thm_C6.1 apiErrInv 0 initLoopState rfl rfl
  have h2 := thm_C6.2 transInv 0 initLoopState rfl
  exact ⟨h1.1, h1.2 rfl (Except.ok []) lookupS 5 7 initMetricState,
         h2.1, (h2.2 rfl (Except.ok []) lookupS 5 7 initMetricState).1⟩

/-- C7, confirmed (the lifetime counter among the preserved series is
modelled from the spec, see `MetricState.scrapeCount`): `clear` empties
exactly the project-pages and custom-domain series families and leaves
the running-state gauge, both timing gauges and the lifetime counter
unchanged; and in every reachable state of a cycle the clear event has
happened exactly once as the very first registry event — hence before
every project or domain record of that cycle — and never again. -/
theorem thm_C7 :
    (∀ m : MetricState,
      (clear m).projectPagesMetrics = [] ∧
      (clear m).customDomainMetrics = [] ∧
      (clear m).checkState = m.checkState ∧
      (clear m).lastCheckDuration = m.lastCheckDuration ∧
      (clear m).lastCheckTime = m.lastCheckTime ∧
      (clear m).scrapeCount = m.scrapeCount) ∧
    (∀ (inv : Nat → PageResp) (dm : Except String (List PagesDomain))
      (s : CycleSys),
      Relation.ReflTransGen (CycleStep inv dm) cycleInit s →
      (s.pc = MainPC.start → s.events = []) ∧
      (s.pc ≠ MainPC.start →
        ∃ t, s.events = Event.clearEv :: t ∧ Event.clearEv ∉ t)) := by
  constructor
  · intro m
    exact ⟨rfl, rfl, rfl, rfl, rfl, rfl⟩
  · intro inv dm s h
    rcases cycleInv_reach inv dm s h with ⟨hpc, hE, _⟩ | ⟨hpc, t, hE, hnot⟩
    · exact ⟨fun _ => hE, fun hn => absurd hpc hn⟩
    · exact ⟨fun hs => absurd hs hpc, fun _ => ⟨t, hE, hnot⟩⟩

theorem thm_C7_witness :
    cycleInit.events = [] ∧
    (clear initMetricState).scrapeCount = initMetricState.scrapeCount :=
  ⟨(thm_C7.2 inv0 (Except.ok []) cycleInit Relation.ReflTransGen.refl).1 rfl,
   (thm_C7.1 initMetricState).2.2.2.2.2⟩

/-- C2, counterexample: the cycle does NOT wait for a page's checks
before fetching the next page.  Over the two-page inventory `inv2` (one
project per page) the state `c3state` is reachable in which the
pagination loop has already fetched pages 2 and 3 while the checks
spawned for page 1 (`projA`) and page 2 (`projB`) are both still pending
and nothing has been recorded — two pages' worth of secondary lookups in
flight at once, with pages of size one. -/
theorem thm_C2_cex :
    Relation.ReflTransGen (CycleStep inv2 (Except.ok [])) cycleInit c3state ∧
    c3state.pc = MainPC.looping
      { page := 3, spawned := [projA, projB], total := 2, errors := 0 } ∧
    Goroutine.checkProject projA ∈ c3state.pending ∧
    Goroutine.checkProject projB ∈ c3state.pending ∧
    c3state.events = [Event.clearEv] := by
  refine ⟨?_, rfl, by decide, by decide, rfl⟩
  exact Relation.ReflTransGen.tail
    (Relation.ReflTransGen.tail
      (Relation.ReflTransGen.tail Relation.ReflTransGen.refl
        (CycleStep.doClear [] []))
      (CycleStep.loopAdvance initLoopState
        { page := 2, spawned := [projA], total := 1, errors := 0 }
        [Goroutine.domainFetch] [Event.clearEv] rfl))
    (CycleStep.loopAdvance
      { page := 2, spawned := [projA], total := 1, errors := 0 }
      { page := 3, spawned := [projA, projB], total := 2, errors := 0 }
      [Goroutine.domainFetch, Goroutine.checkProject projA] [Event.clearEv] rfl)

/-- C2, amended: within one cycle the loop issues one concurrent check
per resource of each fetched page but never waits for them — the
page-advance is enabled whatever checks are still pending (the spawned
goroutines are fire-and-forget, there is no join), and every previously
pending check is still pending after the advance. -/
theorem thm_C2 :
    ∀ (inv : Nat → PageResp) (dm : Except String (List PagesDomain))
    (s s₂ : LoopState) (P : List Goroutine) (E : List Event),
    loopIter inv s = LoopOut.more s₂ →
    CycleStep inv dm
      { pc := MainPC.looping s, pending := P, events := E }
      { pc := MainPC.looping s₂
        pending := P ++ (inv s.page).projects.map Goroutine.checkProject
        events := E } ∧
    (∀ g, g ∈ P →
      g ∈ P ++ (inv s.page).projects.map Goroutine.checkProject) :=
  fun inv dm s s₂ P E h =>
    ⟨CycleStep.loopAdvance s s₂ P E h,
     fun _ hg => List.mem_append_left _ hg⟩

theorem thm_C2_witness :
    CycleStep inv2 (Except.ok [])
      { pc := MainPC.looping initLoopState
        pending := [Goroutine.domainFetch], events := [Event.clearEv] }
      { pc := MainPC.looping { page := 2, spawned := [projA], total := 1, errors := 0 }
        pending := [Goroutine.domainFetch, Goroutine.checkProject projA]
        events := [Event.clearEv] } :=
  (thm_C2 inv2 (Except.ok []) initLoopState
    { page := 2, spawned := [projA], total := 1, errors := 0 }
    [Goroutine.domainFetch] [Event.clearEv] rfl).1

/-- C1, counterexample: a trigger arriving while a cycle is still running
is not dropped.  From process start the scheduler reaches `schedMid`
(one cycle mid-flight that has recorded the series of `projA`); a cron
trigger fires there (`SchedStep schedMid schedTrig` — unconditionally
starting a second `Run`), the second `Run` executes its `clear()`, and
in the resulting state two cycles are concurrently in flight and the
per-cycle project series recorded by the first cycle have been wiped
mid-flight. -/
theorem thm_C1_cex :
    Relation.ReflTransGen SchedStep schedInit schedMid ∧
    schedMid.cycles = [CycleStage.working] ∧
    schedMid.metrics.projectPagesMetrics = [(keyA, 1)] ∧
    SchedStep schedMid schedTrig ∧
    SchedStep schedTrig schedOverlap ∧
    schedOverlap.cycles = [CycleStage.working, CycleStage.working] ∧
    schedOverlap.metrics.projectPagesMetrics = [] := by
  refine ⟨?_, rfl, rfl, ?_, ?_, rfl, rfl⟩
  · exact Relation.ReflTransGen.tail
      (Relation.ReflTransGen.tail
        (Relation.ReflTransGen.tail Relation.ReflTransGen.refl
          (SchedStep.trigger schedInit))
        (SchedStep.beginCycle [] [] initMetricState))
      (SchedStep.recordCheck [] [] (clear (setRunning true initMetricState)) keyA 1)
  · exact SchedStep.trigger schedMid
  · exact SchedStep.beginCycle [] [CycleStage.working] schedMid.metrics

/-- C1, amended: no overlap prevention exists — the trigger handler
invokes `Run` unconditionally, so the trigger transition is enabled in
every scheduler state (in particular while a cycle is `working`), and a
newly begun `Run` executes `clear()` whatever other cycles are in
flight, leaving both per-cycle series families empty. -/
theorem thm_C1 :
    (∀ s : SchedSys,
      SchedStep s { s with cycles := CycleStage.started :: s.cycles }) ∧
    (∀ (l r : List CycleStage) (m : MetricState),
      SchedStep
        { cycles := l ++ CycleStage.started :: r, metrics := m }
        { cycles := l ++ CycleStage.working :: r
          metrics := clear (setRunning true m) } ∧
      (clear (setRunning true m)).projectPagesMetrics = [] ∧
      (clear (setRunning true m)).customDomainMetrics = []) :=
  ⟨fun s => SchedStep.trigger s,
   fun l r m => ⟨SchedStep.beginCycle l r m, rfl, rfl⟩⟩

end GPE
